import Mathlib

/-!
Verification of the service-lifecycle orchestration core of the
traefik-power-management plugin (package traefik_power_management,
src/main.go).  Go strings are modelled as lists of byte values
(`List Nat`, one entry per byte), so that `len` on a Go string and
`List.length` agree.  Network and clock effects are supplied as explicit
oracle parameters; times are in seconds (the code multiplies every
configured duration by `time.Second`).  Machine integers appear as
`Int`/`Nat`; the two float64 progress formulas are embedded over `ℚ`
with truncation, exact for the rational values involved and with the
claimed bounds holding with a margin far beyond double rounding.
-/

namespace WOL

/-- Byte values of a Go string literal (ASCII inputs only, where byte
values and code points coincide). -/
def goBytes (s : String) : List Nat := s.data.map Char.toNat

/-! ## MAC/Packet codec (src/main.go lines 1240-1274) -/

/-- ASCII lower-casing of one byte, as `strings.ToLower` acts on the
ASCII subset relevant to MAC parsing. -/
def asciiToLower (b : Nat) : Nat :=
  if 65 ≤ b ∧ b ≤ 90 then b + 32 else b

/-- A byte that `parseMACAddress` strips: one of `:` (58), `-` (45),
`.` (46). -/
def isMACSeparator (b : Nat) : Bool :=
  b == 58 || b == 45 || b == 46

/-- A hexadecimal-digit byte as accepted by `strconv.ParseUint` base 16:
`0`-`9`, `a`-`f`, `A`-`F`. -/
def isHexDigit (b : Nat) : Bool :=
  (48 ≤ b && b ≤ 57) || (97 ≤ b && b ≤ 102) || (65 ≤ b && b ≤ 70)

/-- Numeric value of a hexadecimal-digit byte. -/
def hexVal (b : Nat) : Nat :=
  if 48 ≤ b && b ≤ 57 then b - 48
  else if 97 ≤ b && b ≤ 102 then b - 97 + 10
  else if 65 ≤ b && b ≤ 70 then b - 65 + 10
  else 0

/-- The cleaning phase of `parseMACAddress`: the three
`strings.ReplaceAll` calls delete every separator byte, then
`strings.ToLower` lower-cases the remainder. -/
def cleanMAC (s : List Nat) : List Nat :=
  (s.filter (fun b => !(isMACSeparator b))).map asciiToLower

/-- The pair-parsing loop of `parseMACAddress`: each consecutive pair of
bytes is parsed with `strconv.ParseUint(…, 16, 8)`; the first non-hex
pair aborts with an error. -/
def parseHexPairs : List Nat → Option (List Nat)
  | [] => some []
  | [_] => none
  | b1 :: b2 :: rest =>
    if isHexDigit b1 && isHexDigit b2 then
      (parseHexPairs rest).map (fun l => (hexVal b1 * 16 + hexVal b2) :: l)
    else none

/-- `parseMACAddress` (src/main.go lines 1240-1260): strip separators,
lower-case, require exactly 12 remaining bytes, then parse six
hexadecimal pairs. -/
def parseMACAddress (s : List Nat) : Option (List Nat) :=
  let cleaned := cleanMAC s
  if cleaned.length = 12 then parseHexPairs cleaned else none

/-- Go `copy(dst[pos:], src)` on byte slices: element-wise writes that
stop silently at the end of `dst` (`List.set` out of range is the
identity). -/
def goCopy (dst : List Nat) (pos : Nat) (src : List Nat) : List Nat :=
  match src with
  | [] => dst
  | b :: rest => goCopy (dst.set pos b) (pos + 1) rest

/-- `createMagicPacket` (src/main.go lines 1262-1274): a 102-byte buffer,
first 6 bytes set to 0xFF, then 16 copies of the MAC bytes at offsets
`6 + i*6`. -/
def createMagicPacket (macBytes : List Nat) : List Nat :=
  let packet := List.replicate 102 0
  let packet := (List.range 6).foldl (fun acc i => acc.set i 255) packet
  (List.range 16).foldl (fun acc i => goCopy acc (6 + i * 6) macBytes) packet

/-! ## Target resolver (src/main.go lines 1078-1162)

Interface discovery is an effect of the host; the interfaces returned by
`net.Interfaces()` (or its failure) enter as an oracle argument.  Each
interface carries the broadcast strings its IPv4 addresses yield through
`calculateBroadcastAddress`; an `Addrs()` failure or an address with no
IPv4 broadcast contributes nothing, exactly as the loops skip them. -/

/-- One entry of the `net.Interfaces()` result, together with the
broadcast address strings that its IPv4 addresses produce. -/
structure NetInterface where
  name : List Nat
  flagLoopback : Bool
  flagUp : Bool
  broadcasts : List (List Nat)
deriving DecidableEq

/-- `getNetworkInterfaces` (src/main.go lines 1078-1104): the system
interfaces are filtered (drop loopback and down interfaces, and keep only
the configured one when a name is configured); an empty remainder is the
error `no valid network interfaces found`, modelled by `none`.  The
`sysInterfaces` argument is `none` when `net.Interfaces()` itself
fails. -/
def getNetworkInterfaces (networkInterface : List Nat)
    (sysInterfaces : Option (List NetInterface)) : Option (List NetInterface) :=
  match sysInterfaces with
  | none => none
  | some ifaces =>
    let valid := ifaces.filter fun i =>
      !i.flagLoopback && i.flagUp &&
        (networkInterface == [] || i.name == networkInterface)
    if valid = [] then none else some valid

/-- `getBroadcastAddresses` (src/main.go lines 1122-1162): a configured
broadcast address is used exclusively; otherwise discovery runs, an
interface-discovery error returns the still-empty list, and only a
successful discovery with no candidates appends the limited-broadcast
fallback. -/
def getBroadcastAddresses (broadcastAddress networkInterface : List Nat)
    (sysInterfaces : Option (List NetInterface)) : List (List Nat) :=
  if broadcastAddress ≠ [] then [broadcastAddress]
  else
    match getNetworkInterfaces networkInterface sysInterfaces with
    | none => []
    | some ifaces =>
      let addresses := (ifaces.map NetInterface.broadcasts).flatten
      if addresses = [] then [goBytes "255.255.255.255"] else addresses

/-! ## Packet transmitter (src/main.go lines 1164-1238)

`sendToAddress` performs one connectionless UDP send; its outcome per
target address enters as the oracle `send` (`none` = success, `some e` =
the error message). -/

/-- The ordered attempt list of `sendWOLPacket`: the unicast target when
an IP address is configured, then every broadcast address. -/
def wolAttemptList (ipAddress : List Nat) (broadcasts : List (List Nat)) :
    List (List Nat) :=
  (if ipAddress = [] then [] else [ipAddress]) ++ broadcasts

/-- The attempt loop of `sendWOLPacket`: `sentSuccessfully` is latched by
any success, `lastError` is overwritten by each failure. -/
def runSendAttempts (send : List Nat → Option (List Nat)) :
    List (List Nat) → Bool → Option (List Nat) → Bool × Option (List Nat)
  | [], sent, lastErr => (sent, lastErr)
  | a :: rest, sent, lastErr =>
    match send a with
    | none => runSendAttempts send rest true lastErr
    | some e => runSendAttempts send rest sent (some e)

/-- `sendWOLPacket` (src/main.go lines 1164-1215): parse the MAC, build
the packet, run all attempts, and fail only when no attempt succeeded,
reporting the last recorded error. -/
def sendWOLPacket (macAddress ipAddress : List Nat)
    (broadcasts : List (List Nat)) (send : List Nat → Option (List Nat)) :
    Option (List Nat) :=
  match parseMACAddress macAddress with
  | none => some (goBytes "invalid MAC address")
  | some _ =>
    let r := runSendAttempts send (wolAttemptList ipAddress broadcasts) false none
    if r.1 then none
    else some (goBytes "failed to send WOL packet to any address: " ++ r.2.getD [])

/-! ## Operation state and admission (src/main.go lines 344-351,
1327-1361, 1563-1597) -/

/-- The `wakeStatus` record guarded by `wakeMutex`. -/
structure WakeStatus where
  isWaking : Bool
  isPoweringOff : Bool
  startTime : Nat
  message : List Nat
  progress : Int
deriving DecidableEq

/-- The `{success, message}` JSON envelope of the admission endpoints. -/
structure AdmissionResponse where
  success : Bool
  message : List Nat
deriving DecidableEq

/-- The admission critical section of `handleWakeEndpoint` (src/main.go
lines 1333-1352), for a POST request: reject while either operation flag
is set, naming the one in progress, otherwise flip to waking. -/
def handleWakeEndpoint (s : WakeStatus) (now : Nat) :
    WakeStatus × AdmissionResponse :=
  if s.isWaking || s.isPoweringOff then
    let processType := if s.isPoweringOff then goBytes "power-off" else goBytes "wake"
    (s, ⟨false, processType ++ goBytes " process already in progress"⟩)
  else
    ({ isWaking := true, isPoweringOff := false, startTime := now,
       message := goBytes "Initiating wake sequence...", progress := 0 },
     ⟨true, goBytes "Wake process started"⟩)

/-- The admission critical section of `handlePowerOffEndpoint`
(src/main.go lines 1569-1588), for a POST request. -/
def handlePowerOffEndpoint (s : WakeStatus) (now : Nat) :
    WakeStatus × AdmissionResponse :=
  if s.isWaking || s.isPoweringOff then
    let processType := if s.isWaking then goBytes "wake" else goBytes "power-off"
    (s, ⟨false, processType ++ goBytes " process already in progress"⟩)
  else
    ({ isWaking := false, isPoweringOff := true, startTime := now,
       message := goBytes "Initiating power-off sequence...", progress := 0 },
     ⟨true, goBytes "Power-off process started"⟩)

/-- The atomic mutations of the operation cache: the two admission
critical sections, a message/progress update from a running sequence
body (which never touches the flags), and the two deferred flag clears
that end `performWakeSequence` and `performPowerOffSequence`. -/
inductive OpEvent where
  | wakeReq (now : Nat)
  | powerReq (now : Nat)
  | seqUpdate (msg : List Nat) (prog : Int)
  | wakeSeqEnd
  | powerSeqEnd
deriving DecidableEq

/-- Effect of one atomic mutation on the operation cache. -/
def opStep (s : WakeStatus) : OpEvent → WakeStatus
  | .wakeReq now => (handleWakeEndpoint s now).1
  | .powerReq now => (handlePowerOffEndpoint s now).1
  | .seqUpdate msg prog => { s with message := msg, progress := prog }
  | .wakeSeqEnd => { s with isWaking := false }
  | .powerSeqEnd => { s with isPoweringOff := false }

/-- The zero-valued `wakeStatus` allocated in `New`. -/
def initialWakeStatus : WakeStatus :=
  { isWaking := false, isPoweringOff := false, startTime := 0,
    message := [], progress := 0 }

/-- States of the operation cache reachable from startup through any
interleaving of the atomic mutations. -/
inductive ReachableOp : WakeStatus → Prop where
  | init : ReachableOp initialWakeStatus
  | step {s : WakeStatus} (h : ReachableOp s) (e : OpEvent) : ReachableOp (opStep s e)

/-! ## Bypass session (src/main.go lines 353-357, 924-933, 1000-1023,
1536-1560) -/

/-- The `bypassStatus` record guarded by `bypassMutex`. -/
structure BypassStatus where
  isBypass : Bool
  startTime : Nat
deriving DecidableEq

/-- `isBypassActive` (src/main.go lines 1000-1014): active flag set and
not past the 5-second expiration; purely a read. -/
def isBypassActive (s : BypassStatus) (now : Nat) : Bool :=
  if !s.isBypass then false
  else if now - s.startTime > 5 then false
  else true

/-- `clearBypassState` (src/main.go lines 1017-1023): reset both fields
to their zero values. -/
def clearBypassState (_ : BypassStatus) : BypassStatus :=
  { isBypass := false, startTime := 0 }

/-- The grant performed by `handleRedirectEndpoint` (src/main.go lines
1544-1547): `isBypass = true`, `startTime = now`. -/
def grantBypass (now : Nat) : BypassStatus :=
  { isBypass := true, startTime := now }

/-- The gating prefix of `ServeHTTP` (src/main.go lines 924-933): a
request that observes the bypass active clears it and skips the health
gate (first component `true`); otherwise the state is left untouched and
gating proceeds normally. -/
def bypassGate (s : BypassStatus) (now : Nat) : Bool × BypassStatus :=
  if isBypassActive s now then (true, clearBypassState s) else (false, s)

/-- The HTTP reply of the redirect endpoint. -/
inductive HTTPReply where
  | methodNotAllowed
  | redirect (status : Nat) (location : List Nat)
deriving DecidableEq

/-- `handleRedirectEndpoint` (src/main.go lines 1537-1560): POST only;
grants the bypass window and replies `302 Found` to the request path,
replaced by the root path when it is the redirect endpoint itself. -/
def handleRedirectEndpoint (method path : List Nat) (s : BypassStatus)
    (now : Nat) : BypassStatus × HTTPReply :=
  if method ≠ goBytes "POST" then (s, .methodNotAllowed)
  else
    let granted := grantBypass now
    let redirectURL := if path = goBytes "/_wol/redirect" then goBytes "/" else path
    (granted, .redirect 302 redirectURL)

/-! ## Health monitor (src/main.go lines 337-342, 962-997) -/

/-- The `healthStatus` record guarded by `healthMutex`. -/
structure HealthStatus where
  isHealthy : Bool
  lastCheck : Nat
  lastState : Bool
deriving DecidableEq

/-- `getCachedHealthStatus` (src/main.go lines 962-997) in the sequential
(single-caller) model: the freshness test under the read lock, the
double-check after the exclusive upgrade, then a probe and the cache
update.  The probe outcome enters as the oracle `probe`; the third
component counts probe invocations. -/
def getCachedHealthStatus (healthCheckInterval : Nat) (debug : Bool)
    (probe : Bool) (s : HealthStatus) (now : Nat) : Bool × HealthStatus × Nat :=
  if now - s.lastCheck < healthCheckInterval then
    (s.isHealthy, s, 0)
  else if now - s.lastCheck < healthCheckInterval then
    (s.isHealthy, s, 0)
  else
    let newHealth := probe
    let s1 :=
      if s.lastState != newHealth || debug then { s with lastState := newHealth } else s
    (newHealth, { s1 with isHealthy := newHealth, lastCheck := now }, 1)

/-- A sequence of `getCachedHealthStatus` calls at the given times,
threading the cache; returns the verdicts, the final cache, and the
total number of probe invocations. -/
def healthCalls (healthCheckInterval : Nat) (debug : Bool) (probe : Bool) :
    HealthStatus → List Nat → List Bool × HealthStatus × Nat
  | s, [] => ([], s, 0)
  | s, t :: ts =>
    let r := getCachedHealthStatus healthCheckInterval debug probe s t
    let rest := healthCalls healthCheckInterval debug probe r.2.1 ts
    (r.1 :: rest.1, rest.2.1, r.2.2 + rest.2.2)

/-! ## Configuration and construction (src/main.go lines 278-307,
400-493) -/

/-- The value of a nonempty all-digit byte string; `none` otherwise.
This is the digit loop of `strconv.Atoi`. -/
def digitsVal (s : List Nat) : Option Nat :=
  if s = [] then none
  else
    s.foldl
      (fun acc b =>
        match acc with
        | none => none
        | some v => if 48 ≤ b ∧ b ≤ 57 then some (v * 10 + (b - 48)) else none)
      (some 0)

/-- `strconv.Atoi`: an optional sign followed by at least one decimal
digit, within the 64-bit signed range. -/
def goAtoi (s : List Nat) : Option Int :=
  match s with
  | 43 :: rest =>
    match digitsVal rest with
    | some n => if n ≤ 9223372036854775807 then some (n : Int) else none
    | none => none
  | 45 :: rest =>
    match digitsVal rest with
    | some n => if n ≤ 9223372036854775808 then some (-(n : Int)) else none
    | none => none
  | _ =>
    match digitsVal s with
    | some n => if n ≤ 9223372036854775807 then some (n : Int) else none
    | none => none

/-- The `Config` fields consulted by `New` (textual fields as byte
strings). -/
structure GoConfig where
  healthCheck : List Nat
  macAddress : List Nat
  ipAddress : List Nat
  broadcastAddress : List Nat
  networkInterface : List Nat
  port : List Nat
  timeout : List Nat
  retryAttempts : List Nat
  retryInterval : List Nat
  healthCheckInterval : List Nat
  redirectDelay : List Nat
  showPowerOffButton : Bool
  powerOffCommand : List Nat
deriving DecidableEq

/-- The parsed plugin fields produced by a successful `New` (durations in
seconds; cosmetic control-page fields omitted). -/
structure WOLPluginCfg where
  healthCheck : List Nat
  macAddress : List Nat
  ipAddress : List Nat
  broadcastAddress : List Nat
  networkInterface : List Nat
  port : Int
  timeout : Int
  retryAttempts : Int
  retryInterval : Int
  healthCheckInterval : Int
  redirectDelay : Int
  showPowerOffButton : Bool
  powerOffCommand : List Nat
deriving DecidableEq

/-- `New` (src/main.go lines 400-493): required-field checks, the six
`strconv.Atoi` parses with early error return, and the power-off
validation.  The hardware-address text is only checked for nonemptiness
here; it is never parsed at construction time. -/
def New (c : GoConfig) : Option WOLPluginCfg :=
  if c.healthCheck = [] then none
  else if c.macAddress = [] then none
  else
    (goAtoi c.port).bind fun port =>
    (goAtoi c.timeout).bind fun timeout =>
    (goAtoi c.retryAttempts).bind fun retryAttempts =>
    (goAtoi c.retryInterval).bind fun retryInterval =>
    (goAtoi c.healthCheckInterval).bind fun healthCheckInterval =>
    (goAtoi c.redirectDelay).bind fun redirectDelay =>
    if c.showPowerOffButton ∧ c.powerOffCommand = [] then none
    else
      some
        { healthCheck := c.healthCheck
          macAddress := c.macAddress
          ipAddress := c.ipAddress
          broadcastAddress := c.broadcastAddress
          networkInterface := c.networkInterface
          port := port
          timeout := timeout
          retryAttempts := retryAttempts
          retryInterval := retryInterval
          healthCheckInterval := healthCheckInterval
          redirectDelay := redirectDelay
          showPowerOffButton := c.showPowerOffButton
          powerOffCommand := c.powerOffCommand }

/-! ## Progress formulas (src/main.go lines 1439-1534, 1600-1628)

The float64 expressions are embedded over `ℚ`; `int(…)` is truncation,
which on the non-negative values below is `Int.floor`. -/

/-- The per-attempt packet-sending progress write of
`performWakeSequence` (line 1451): `int(float64(attempt-1) /
float64(retryAttempts) * 40)`. -/
def wakeSendProgress (attempt retryAttempts : Int) : Int :=
  Int.floor (((attempt : ℚ) - 1) / (retryAttempts : ℚ) * 40)

/-- The per-attempt waiting progress write of `performWakeSequence`
(line 1477): `40 + int(float64(attempt-1) / float64(retryAttempts) *
30)`. -/
def wakeWaitProgress (attempt retryAttempts : Int) : Int :=
  40 + Int.floor (((attempt : ℚ) - 1) / (retryAttempts : ℚ) * 30)

/-- The per-poll progress write of `waitForServiceWithProgress` (lines
1519-1523): `70 + int(float64(elapsed)/float64(timeout)*30)`, capped at
95 until actually healthy. -/
def pollProgress (elapsed timeout : ℚ) : Int :=
  let p := 70 + Int.floor (elapsed / timeout * 30)
  if p > 95 then 95 else p

/-- Progress written by wake admission (line 1351). -/
def wakeAdmissionProgress : Int := 0

/-- Progress written by power-off admission (line 1587). -/
def powerOffAdmissionProgress : Int := 0

/-- Progress written when the wake sequence observes health (line
1483). -/
def wakeOnlineProgress : Int := 100

/-- Progress written when the power-off sequence signals the external
command (line 1611). -/
def powerOffSignaledProgress : Int := 50

/-- Progress written when the power-off sequence completes (line
1621). -/
def powerOffCompleteProgress : Int := 100

/-! ## Helper lemmas -/

/-- In-bounds `goCopy` is list surgery: the `src.length` entries starting
at `pos` are replaced by `src`. -/
theorem goCopy_eq (src : List Nat) : ∀ (dst : List Nat) (pos : Nat),
    pos + src.length ≤ dst.length →
    goCopy dst pos src = dst.take pos ++ src ++ dst.drop (pos + src.length) := by
  induction src with
  | nil => intro dst pos h; simp [goCopy]
  | cons b rest ih =>
    intro dst pos h
    simp only [List.length_cons] at h
    have hlt : pos < dst.length := by omega
    simp only [goCopy]
    rw [ih (dst.set pos b) (pos + 1) (by simp; omega)]
    rw [List.set_eq_take_cons_drop b hlt]
    rw [List.take_append_eq_append_take, List.drop_append_eq_append_drop]
    have h1 : (dst.take pos).length = pos := by simp; omega
    rw [h1]
    have h2 : (dst.take pos).take (pos + 1) = dst.take pos := by
      apply List.take_of_length_le; omega
    have h3 : (dst.take pos).drop (pos + 1 + rest.length) = [] := by
      apply List.drop_eq_nil_of_le; omega
    rw [h2, h3]
    have h4 : pos + 1 - pos = 1 := by omega
    have h5 : pos + 1 + rest.length - pos = 1 + rest.length := by omega
    rw [h4, h5]
    simp only [List.take_succ_cons, List.take_zero, List.nil_append]
    have h6 : (b :: dst.drop (pos + 1)).drop (1 + rest.length) =
        dst.drop (pos + 1 + rest.length) := by
      have e : 1 + rest.length = rest.length + 1 := by omega
      rw [e]
      simp only [List.drop_succ_cons, List.drop_drop]
      try congr 1
      try omega
    rw [h6]
    simp only [List.length_cons]
    have h7 : pos + (rest.length + 1) = pos + 1 + rest.length := by omega
    rw [h7]
    simp [List.append_assoc]

/-- The synchronization-byte loop of `createMagicPacket`, evaluated. -/
theorem fillFF_eq :
    (List.range 6).foldl (fun acc i => acc.set i 255) (List.replicate 102 0) =
      List.replicate 6 255 ++ List.replicate 96 0 := by
  decide

/-- The 16-copy loop of `createMagicPacket` lays the MAC repetitions end
to end after the first 6 bytes. -/
theorem goCopy_fold (mac : List Nat) (hm : mac.length = 6) :
    ∀ (n : Nat) (p : List Nat), p.length = 102 → 6 + 6 * n ≤ 102 →
    (List.range n).foldl (fun acc i => goCopy acc (6 + i * 6) mac) p =
      p.take 6 ++ (List.replicate n mac).flatten ++ p.drop (6 + 6 * n) := by
  intro n
  induction n with
  | zero => intro p hp _; simp
  | succ n ih =>
    intro p hp hn
    rw [List.range_succ, List.foldl_append]
    rw [ih p hp (by omega)]
    simp only [List.foldl_cons, List.foldl_nil]
    set A := p.take 6 ++ (List.replicate n mac).flatten ++ p.drop (6 + 6 * n) with hA
    have hlenflat : (List.replicate n mac).flatten.length = 6 * n := by
      simp [hm, Nat.mul_comm]
    have hlenA : A.length = 102 := by
      rw [hA]
      simp [hlenflat, hp]
      omega
    have hstep : goCopy A (6 + n * 6) mac =
        A.take (6 + n * 6) ++ mac ++ A.drop (6 + n * 6 + 6) := by
      rw [goCopy_eq mac A (6 + n * 6) (by rw [hlenA, hm]; omega)]
      congr 2
      omega
    rw [hstep]
    have hpre : A.take (6 + n * 6) = p.take 6 ++ (List.replicate n mac).flatten := by
      rw [hA, List.append_assoc]
      rw [List.take_append_eq_append_take]
      have l1 : (p.take 6).length = 6 := by simp [hp]
      rw [l1]
      have t1 : (p.take 6).take (6 + n * 6) = p.take 6 := by
        apply List.take_of_length_le; omega
      rw [t1]
      have e1 : 6 + n * 6 - 6 = n * 6 := by omega
      rw [e1]
      rw [List.take_append_eq_append_take]
      have t2 : (List.replicate n mac).flatten.take (n * 6) =
          (List.replicate n mac).flatten := by
        apply List.take_of_length_le; rw [hlenflat]; omega
      rw [t2, hlenflat]
      have e2 : n * 6 - 6 * n = 0 := by omega
      rw [e2]
      simp
    have hsuf : A.drop (6 + n * 6 + 6) = p.drop (6 + 6 * (n + 1)) := by
      rw [hA, List.append_assoc]
      rw [List.drop_append_eq_append_drop]
      have l1 : (p.take 6).length = 6 := by simp [hp]
      rw [l1]
      have d1 : (p.take 6).drop (6 + n * 6 + 6) = [] := by
        apply List.drop_eq_nil_of_le; omega
      rw [d1]
      rw [List.drop_append_eq_append_drop]
      have d2 : (List.replicate n mac).flatten.drop (6 + n * 6 + 6 - 6) = [] := by
        apply List.drop_eq_nil_of_le; rw [hlenflat]; omega
      rw [d2, hlenflat]
      rw [List.drop_drop]
      simp only [List.nil_append]
      congr 1
      omega
    rw [hpre, hsuf]
    have hflat : (List.replicate (n + 1) mac).flatten =
        (List.replicate n mac).flatten ++ mac := by
      rw [List.replicate_succ']
      simp
    rw [hflat]
    simp [List.append_assoc]

/-! ## Claim theorems -/

/-- C2: for every 6-byte hardware address, `createMagicPacket` returns
exactly 102 bytes, the first 6 all 0xFF and the remaining 96 the address
repeated 16 times.  Determinism on identical input is definitional for
the pure embedding. -/
theorem createMagicPacket_spec (mac : List Nat) (hm : mac.length = 6) :
    createMagicPacket mac = List.replicate 6 255 ++ (List.replicate 16 mac).flatten ∧
    (createMagicPacket mac).length = 102 ∧
    (createMagicPacket mac).take 6 = List.replicate 6 255 ∧
    (createMagicPacket mac).drop 6 = (List.replicate 16 mac).flatten := by
  have hmain : createMagicPacket mac =
      List.replicate 6 255 ++ (List.replicate 16 mac).flatten := by
    unfold createMagicPacket
    dsimp only
    rw [fillFF_eq]
    rw [goCopy_fold mac hm 16 (List.replicate 6 255 ++ List.replicate 96 0)
      (by decide) (by decide)]
    have t1 : (List.replicate 6 255 ++ List.replicate 96 (0 : Nat)).take 6 =
        List.replicate 6 255 := by decide
    have t2 : (List.replicate 6 255 ++ List.replicate 96 (0 : Nat)).drop (6 + 6 * 16) =
        [] := by decide
    rw [t1, t2]
    simp
  refine ⟨hmain, ?_, ?_, ?_⟩
  · rw [hmain]; simp [hm]
  · rw [hmain]; simp
  · rw [hmain]; simp

/-- C2 witness: the byte-for-byte result for address
`00:11:22:33:44:55`. -/
theorem createMagicPacket_spec_witness :
    parseMACAddress (goBytes "00:11:22:33:44:55") = some [0, 17, 34, 51, 68, 85] ∧
    (createMagicPacket [0, 17, 34, 51, 68, 85] =
        List.replicate 6 255 ++ (List.replicate 16 [0, 17, 34, 51, 68, 85]).flatten ∧
      (createMagicPacket [0, 17, 34, 51, 68, 85]).length = 102 ∧
      (createMagicPacket [0, 17, 34, 51, 68, 85]).take 6 = List.replicate 6 255 ∧
      (createMagicPacket [0, 17, 34, 51, 68, 85]).drop 6 =
        (List.replicate 16 [0, 17, 34, 51, 68, 85]).flatten) :=
  ⟨by decide, createMagicPacket_spec [0, 17, 34, 51, 68, 85] (by decide)⟩


theorem sep_lower (b : Nat) : isMACSeparator (asciiToLower b) = isMACSeparator b := by
  rw [Bool.eq_iff_iff]
  unfold asciiToLower isMACSeparator
  split
  · simp
    omega
  · simp

theorem lower_idem (b : Nat) : asciiToLower (asciiToLower b) = asciiToLower b := by
  unfold asciiToLower
  split <;> (try split) <;> omega

theorem cleanMAC_filter (s : List Nat) :
    cleanMAC (s.filter (fun b => !(isMACSeparator b))) = cleanMAC s := by
  unfold cleanMAC
  rw [List.filter_filter]
  simp

theorem cleanMAC_lower (s : List Nat) :
    cleanMAC (s.map asciiToLower) = cleanMAC s := by
  unfold cleanMAC
  rw [List.filter_map]
  simp only [Function.comp_def, sep_lower]
  rw [List.map_map]
  congr 1
  funext b
  exact lower_idem b



theorem parseHexPairs_isSome : (l : List Nat) →
    ((parseHexPairs l).isSome ↔ (l.all isHexDigit = true ∧ l.length % 2 = 0))
  | [] => by simp [parseHexPairs]
  | [b] => by simp [parseHexPairs]
  | b1 :: b2 :: rest => by
    have ih := parseHexPairs_isSome rest
    simp only [parseHexPairs, List.all_cons, List.length_cons]
    by_cases h1 : isHexDigit b1 <;> by_cases h2 : isHexDigit b2 <;>
      (simp [h1, h2, ih]; try omega)

theorem parseHexPairs_length : ∀ (l : List Nat) (bs : List Nat),
    parseHexPairs l = some bs → 2 * bs.length = l.length
  | [], bs => by
    intro h
    simp only [parseHexPairs, Option.some.injEq] at h
    subst h
    rfl
  | [b], bs => by simp [parseHexPairs]
  | b1 :: b2 :: rest, bs => by
    simp only [parseHexPairs]
    split
    · intro h
      rcases Option.map_eq_some'.mp h with ⟨l, hl, rfl⟩
      have := parseHexPairs_length rest l hl
      simp only [List.length_cons]
      omega
    · intro h
      exact absurd h (by simp)



theorem parse_eq_of_clean {s t : List Nat} (h : cleanMAC s = cleanMAC t) :
    parseMACAddress s = parseMACAddress t := by
  simp only [parseMACAddress]
  rw [h]

/-- C3: `parseMACAddress` depends only on the separator-stripped,
lower-cased text, so every rendering of an address with `:`, `-`, `.`
separators (or none) and any letter case parses identically; it fails
exactly when the cleaned text is not 12 bytes long or contains a non-hex
byte, and every success is 6 bytes. -/
theorem parseMACAddress_spec :
    (∀ s : List Nat,
      parseMACAddress (s.filter (fun b => !(isMACSeparator b))) = parseMACAddress s) ∧
    (∀ s : List Nat, parseMACAddress (s.map asciiToLower) = parseMACAddress s) ∧
    (∀ s t : List Nat, cleanMAC s = cleanMAC t → parseMACAddress s = parseMACAddress t) ∧
    (∀ s : List Nat, parseMACAddress s = none ↔
      ¬((cleanMAC s).length = 12 ∧ (cleanMAC s).all isHexDigit = true)) ∧
    (∀ (s bs : List Nat), parseMACAddress s = some bs → bs.length = 6) := by
  refine ⟨?_, ?_, ?_, ?_, ?_⟩
  · intro s
    exact parse_eq_of_clean (cleanMAC_filter s)
  · intro s
    exact parse_eq_of_clean (cleanMAC_lower s)
  · intro s t h
    exact parse_eq_of_clean h
  · intro s
    simp only [parseMACAddress]
    by_cases hlen : (cleanMAC s).length = 12
    · simp only [hlen, if_true]
      rw [← Option.not_isSome_iff_eq_none, parseHexPairs_isSome]
      simp [hlen]
    · simp [hlen]
  · intro s bs h
    simp only [parseMACAddress] at h
    split at h
    · next hlen =>
      have := parseHexPairs_length _ _ h
      omega
    · exact absurd h (by simp)

/-- C3 witness: concrete separator and case variants of one address, a
rejected non-hex input, and the 6-byte success length. -/
theorem parseMACAddress_spec_witness :
    parseMACAddress (goBytes "00-11-22.33:44:55") =
      parseMACAddress (goBytes "00:11:22:33:44:55") ∧
    parseMACAddress (goBytes "AA:BB:CC:DD:EE:FF") =
      parseMACAddress (goBytes "aabbccddeeff") ∧
    (parseMACAddress (goBytes "00:11:22:33:44:5G") = none ↔
      ¬((cleanMAC (goBytes "00:11:22:33:44:5G")).length = 12 ∧
        (cleanMAC (goBytes "00:11:22:33:44:5G")).all isHexDigit = true)) ∧
    ([170, 187, 204, 221, 238, 255] : List Nat).length = 6 :=
  ⟨parseMACAddress_spec.2.2.1 _ _ (by decide),
   parseMACAddress_spec.2.2.1 _ _ (by decide),
   parseMACAddress_spec.2.2.2.1 _,
   parseMACAddress_spec.2.2.2.2 (goBytes "aabbccddeeff")
     [170, 187, 204, 221, 238, 255] (by decide)⟩

/-- Helper: no interleaving of admissions, sequence updates and sequence
terminations can set both operation flags. -/
theorem reachable_not_both {s : WakeStatus} (h : ReachableOp s) :
    ¬(s.isWaking = true ∧ s.isPoweringOff = true) := by
  induction h with
  | init => simp [initialWakeStatus]
  | step h e ih =>
    cases e with
    | wakeReq now =>
      simp only [opStep, handleWakeEndpoint]
      split
      · exact ih
      · simp
    | powerReq now =>
      simp only [opStep, handlePowerOffEndpoint]
      split
      · exact ih
      · simp
    | seqUpdate msg prog =>
      simpa [opStep] using ih
    | wakeSeqEnd =>
      simp [opStep]
    | powerSeqEnd =>
      simp [opStep]

/-- Claim C1: in every reachable operation-cache state `isWaking` and
`isPoweringOff` are never both true, and an admission request issued
while either flag is set is rejected with `success = false` and a
message naming the operation in progress, leaving the state unchanged. -/
theorem admission_mutual_exclusion :
    (∀ s : WakeStatus, ReachableOp s → ¬(s.isWaking = true ∧ s.isPoweringOff = true)) ∧
    (∀ (s : WakeStatus) (now : Nat), ReachableOp s → s.isWaking = true →
      handleWakeEndpoint s now =
        (s, ⟨false, goBytes "wake process already in progress"⟩) ∧
      handlePowerOffEndpoint s now =
        (s, ⟨false, goBytes "wake process already in progress"⟩)) ∧
    (∀ (s : WakeStatus) (now : Nat), ReachableOp s → s.isPoweringOff = true →
      handleWakeEndpoint s now =
        (s, ⟨false, goBytes "power-off process already in progress"⟩) ∧
      handlePowerOffEndpoint s now =
        (s, ⟨false, goBytes "power-off process already in progress"⟩)) := by
  refine ⟨fun s h => reachable_not_both h, ?_, ?_⟩
  · intro s now hr hW
    have hP : s.isPoweringOff = false := by
      cases hPO : s.isPoweringOff
      · rfl
      · exact absurd ⟨hW, hPO⟩ (reachable_not_both hr)
    constructor
    · simp only [handleWakeEndpoint, hW, hP]
      simp [goBytes]
    · simp only [handlePowerOffEndpoint, hW, hP]
      simp [goBytes]
  · intro s now hr hP
    have hW : s.isWaking = false := by
      cases hWk : s.isWaking
      · rfl
      · exact absurd ⟨hWk, hP⟩ (reachable_not_both hr)
    constructor
    · simp only [handleWakeEndpoint, hW, hP]
      simp [goBytes]
    · simp only [handlePowerOffEndpoint, hW, hP]
      simp [goBytes]

/-- Claim C1 witness: after an accepted wake (respectively power-off)
admission from startup, both endpoints reject, naming the running
operation and leaving the state unchanged. -/
theorem admission_mutual_exclusion_witness :
    (¬((opStep initialWakeStatus (OpEvent.wakeReq 5)).isWaking = true ∧
       (opStep initialWakeStatus (OpEvent.wakeReq 5)).isPoweringOff = true)) ∧
    handleWakeEndpoint (opStep initialWakeStatus (OpEvent.wakeReq 5)) 9 =
      (opStep initialWakeStatus (OpEvent.wakeReq 5),
        ⟨false, goBytes "wake process already in progress"⟩) ∧
    handlePowerOffEndpoint (opStep initialWakeStatus (OpEvent.powerReq 3)) 9 =
      (opStep initialWakeStatus (OpEvent.powerReq 3),
        ⟨false, goBytes "power-off process already in progress"⟩) :=
  ⟨admission_mutual_exclusion.1 _ (ReachableOp.step ReachableOp.init _),
   (admission_mutual_exclusion.2.1 _ 9 (ReachableOp.step ReachableOp.init _) (by decide)).1,
   (admission_mutual_exclusion.2.2 _ 9 (ReachableOp.step ReachableOp.init _) (by decide)).2⟩



/-- Helper: the attempt loop reports success exactly when the latch was
set or some attempt succeeded. -/
theorem runSendAttempts_fst (send : List Nat → Option (List Nat)) :
    ∀ (l : List (List Nat)) (sent : Bool) (err : Option (List Nat)),
    (runSendAttempts send l sent err).1 =
      (sent || l.any fun a => (send a).isNone) := by
  intro l
  induction l with
  | nil => intro sent err; simp [runSendAttempts]
  | cons x xs ih =>
    intro sent err
    simp only [runSendAttempts]
    cases h : send x with
    | none => simp [h, ih, Bool.or_comm, Bool.or_assoc, Bool.or_left_comm]
    | some e => simp [h, ih]

/-- Helper: when every attempt fails, the recorded error is that of the
last attempt. -/
theorem runSendAttempts_snd (send : List Nat → Option (List Nat)) :
    ∀ (l : List (List Nat)) (sent : Bool) (err : Option (List Nat)) (a : List Nat),
    (∀ b ∈ l, (send b).isSome) → l.getLast? = some a →
    (runSendAttempts send l sent err).2 = send a := by
  intro l
  induction l with
  | nil => intro sent err a _ h; simp at h
  | cons x xs ih =>
    intro sent err a hall hlast
    have hx : (send x).isSome := hall x (by simp)
    rcases Option.isSome_iff_exists.mp hx with ⟨e, he⟩
    cases xs with
    | nil =>
      simp at hlast
      subst hlast
      simp [runSendAttempts, he]
    | cons y ys =>
      have hlast2 : (y :: ys).getLast? = some a := by
        rwa [List.getLast?_cons_cons] at hlast
      simp only [runSendAttempts, he]
      exact ih sent (some e) a (fun b hb => hall b (by simp [hb])) hlast2

/-- Claim C4: with a parseable MAC, `sendWOLPacket` succeeds exactly when
at least one attempt (unicast when configured, then each broadcast)
succeeds, and on total failure returns an error carrying the last
recorded attempt error. -/
theorem sendWOLPacket_spec (mac ip : List Nat) (bcasts : List (List Nat))
    (send : List Nat → Option (List Nat)) (mb : List Nat)
    (hmac : parseMACAddress mac = some mb) :
    (sendWOLPacket mac ip bcasts send = none ↔
      ∃ a ∈ wolAttemptList ip bcasts, send a = none) ∧
    (∀ a : List Nat, (∀ b ∈ wolAttemptList ip bcasts, send b ≠ none) →
      (wolAttemptList ip bcasts).getLast? = some a →
      sendWOLPacket mac ip bcasts send =
        some (goBytes "failed to send WOL packet to any address: " ++
          (send a).getD [])) := by
  constructor
  · simp only [sendWOLPacket, hmac]
    rw [runSendAttempts_fst]
    simp only [Bool.false_or]
    constructor
    · intro h
      split at h
      · next hany =>
        rcases List.any_eq_true.mp hany with ⟨a, ha, hsa⟩
        exact ⟨a, ha, Option.isNone_iff_eq_none.mp hsa⟩
      · exact absurd h (by simp)
    · rintro ⟨a, ha, hsa⟩
      have : (wolAttemptList ip bcasts).any (fun a => (send a).isNone) = true :=
        List.any_eq_true.mpr ⟨a, ha, by simp [hsa]⟩
      simp [this]
  · intro a hall hlast
    simp only [sendWOLPacket, hmac]
    have hfst : (runSendAttempts send (wolAttemptList ip bcasts) false none).1 = false := by
      rw [runSendAttempts_fst]
      simp only [Bool.false_or]
      rw [List.any_eq_false]
      intro b hb
      simp [Option.isNone_iff_eq_none, hall b hb]
    have hsnd : (runSendAttempts send (wolAttemptList ip bcasts) false none).2 = send a :=
      runSendAttempts_snd send _ false none a
        (fun b hb => Option.ne_none_iff_isSome.mp (hall b hb)) hlast
    simp [hfst, hsnd]

/-- Claim C4 witness: one succeeding attempt yields success; all
attempts failing yields the aggregated error with the last attempt
message. -/
theorem sendWOLPacket_spec_witness :
    sendWOLPacket (goBytes "001122334455") (goBytes "1.2.3.4")
        [goBytes "255.255.255.255"] (fun _ => none) = none ∧
    sendWOLPacket (goBytes "001122334455") (goBytes "1.2.3.4")
        [goBytes "255.255.255.255"]
        (fun _ => some (goBytes "network unreachable")) =
      some (goBytes "failed to send WOL packet to any address: " ++
        goBytes "network unreachable") :=
  ⟨(sendWOLPacket_spec _ _ _ _ [0, 17, 34, 51, 68, 85] (by decide)).1.mpr
     ⟨goBytes "1.2.3.4", by decide, rfl⟩,
   (sendWOLPacket_spec _ _ _ _ [0, 17, 34, 51, 68, 85] (by decide)).2
     (goBytes "255.255.255.255")
     (fun b _ => by simp)
     (by decide)⟩



/-- Claim C5: a granted bypass window lets exactly one gated request
within 5 seconds skip health-gating, the observation clears the window
so any further gated request is gated normally, a gated request more
than 5 seconds after the grant is gated normally, and an inactive or
expired window leaves the bypass state untouched. -/
theorem bypass_spec (t0 t1 t2 : Nat) (s : BypassStatus) :
    (t1 ≤ t0 + 5 → bypassGate (grantBypass t0) t1 =
      (true, clearBypassState (grantBypass t0))) ∧
    (bypassGate (clearBypassState (grantBypass t0)) t2 =
      (false, clearBypassState (grantBypass t0))) ∧
    (t0 + 5 < t1 → bypassGate (grantBypass t0) t1 = (false, grantBypass t0)) ∧
    (∀ now : Nat, isBypassActive s now = false → bypassGate s now = (false, s)) := by
  refine ⟨?_, ?_, ?_, ?_⟩
  · intro h
    have hact : isBypassActive (grantBypass t0) t1 = true := by
      simp only [isBypassActive, grantBypass]
      have : ¬(t1 - t0 > 5) := by omega
      simp [this]
    simp [bypassGate, hact]
  · simp [bypassGate, isBypassActive, clearBypassState]
  · intro h
    have hact : isBypassActive (grantBypass t0) t1 = false := by
      simp only [isBypassActive, grantBypass]
      have : t1 - t0 > 5 := by omega
      simp [this]
    simp [bypassGate, hact]
  · intro now h
    simp [bypassGate, h]

/-- Claim C5 witness: grant at 10, first gated request at 12 bypasses
and clears, second at 13 is gated; a request at 16 (more than 5 seconds
after the grant) is gated with the state untouched. -/
theorem bypass_spec_witness :
    bypassGate (grantBypass 10) 12 = (true, clearBypassState (grantBypass 10)) ∧
    bypassGate (clearBypassState (grantBypass 10)) 13 =
      (false, clearBypassState (grantBypass 10)) ∧
    bypassGate (grantBypass 10) 16 = (false, grantBypass 10) :=
  ⟨(bypass_spec 10 12 13 ⟨true, 0⟩).1 (by decide),
   (bypass_spec 10 12 13 ⟨true, 0⟩).2.1,
   (bypass_spec 10 16 13 ⟨true, 0⟩).2.2.1 (by decide)⟩

/-- Helper: a run of calls that all find the cache fresh returns the
cached verdict each time, keeps the cache identical and never probes. -/
theorem healthCalls_fresh (interval : Nat) (debug probe : Bool) :
    ∀ (times : List Nat) (s : HealthStatus),
    (∀ t ∈ times, t - s.lastCheck < interval) →
    healthCalls interval debug probe s times =
      (times.map fun _ => s.isHealthy, s, 0) := by
  intro times
  induction times with
  | nil => intro s _; simp [healthCalls]
  | cons t ts ih =>
    intro s h
    have ht : t - s.lastCheck < interval := h t (by simp)
    simp only [healthCalls, getCachedHealthStatus, ht, if_true]
    rw [ih s (fun u hu => h u (by simp [hu]))]
    simp

/-- Claim C6: any sequence of `getCachedHealthStatus` calls within one
`healthCheckInterval` of the last completed refresh probes at most once
(in fact never), each call returning the cached verdict and leaving the
health cache unchanged. -/
theorem cachedHealth_spec (interval : Nat) (debug probe : Bool)
    (s : HealthStatus) (times : List Nat)
    (h : ∀ t ∈ times, t - s.lastCheck < interval) :
    (∀ now : Nat, now - s.lastCheck < interval →
      getCachedHealthStatus interval debug probe s now = (s.isHealthy, s, 0)) ∧
    healthCalls interval debug probe s times =
      (times.map fun _ => s.isHealthy, s, 0) ∧
    (healthCalls interval debug probe s times).2.2 ≤ 1 := by
  refine ⟨?_, healthCalls_fresh interval debug probe times s h, ?_⟩
  · intro now hnow
    simp [getCachedHealthStatus, hnow]
  · rw [healthCalls_fresh interval debug probe times s h]
    simp

/-- Claim C6 witness: three calls at 101, 105, 109 against a cache
refreshed at 100 with a 10-second interval all return the cached
verdict, leave the cache identical and never probe. -/
theorem cachedHealth_spec_witness :
    (getCachedHealthStatus 10 false false ⟨true, 100, true⟩ 105 = (true, ⟨true, 100, true⟩, 0)) ∧
    healthCalls 10 false false ⟨true, 100, true⟩ [101, 105, 109] =
      ([true, true, true], ⟨true, 100, true⟩, 0) ∧
    (healthCalls 10 false false ⟨true, 100, true⟩ [101, 105, 109]).2.2 ≤ 1 :=
  ⟨(cachedHealth_spec 10 false false ⟨true, 100, true⟩ [101, 105, 109] (by decide)).1
     105 (by decide),
   (cachedHealth_spec 10 false false ⟨true, 100, true⟩ [101, 105, 109] (by decide)).2.1,
   (cachedHealth_spec 10 false false ⟨true, 100, true⟩ [101, 105, 109] (by decide)).2.2⟩

/-- Claim C9: every POST to the redirect endpoint grants the bypass
window (`isBypass = true`, `startTime = now`) and replies `302 Found` to
the requested path, replaced by the root path when the path is the
redirect endpoint itself (the only path the dispatcher routes here). -/
theorem handleRedirect_spec (path : List Nat) (s : BypassStatus) (now : Nat) :
    handleRedirectEndpoint (goBytes "POST") path s now =
      (grantBypass now,
        HTTPReply.redirect 302
          (if path = goBytes "/_wol/redirect" then goBytes "/" else path)) ∧
    handleRedirectEndpoint (goBytes "POST") (goBytes "/_wol/redirect") s now =
      (grantBypass now, HTTPReply.redirect 302 (goBytes "/")) := by
  constructor
  · simp [handleRedirectEndpoint]
  · simp [handleRedirectEndpoint]



/-- Helper: the truncated scaled ratio `(attempt-1)/n * c` lies between
`0` and `c` for `1 ≤ attempt ≤ n`. -/
theorem ratio_floor_bounds (attempt n : Int) (c : ℚ)
    (h1 : 1 ≤ attempt) (h2 : attempt ≤ n) (hc : 0 ≤ c) :
    0 ≤ Int.floor (((attempt : ℚ) - 1) / (n : ℚ) * c) ∧
    Int.floor (((attempt : ℚ) - 1) / (n : ℚ) * c) ≤ Int.floor c := by
  have hn : (0 : ℚ) < (n : ℚ) := by
    have : (0 : Int) < n := by omega
    exact_mod_cast this
  have hnum : (0 : ℚ) ≤ (attempt : ℚ) - 1 := by
    have h1q : (1 : ℚ) ≤ (attempt : ℚ) := by exact_mod_cast h1
    linarith
  have hratio1 : ((attempt : ℚ) - 1) / (n : ℚ) ≤ 1 := by
    rw [div_le_one hn]
    have h2q : (attempt : ℚ) ≤ (n : ℚ) := by exact_mod_cast h2
    linarith
  have hratio0 : (0 : ℚ) ≤ ((attempt : ℚ) - 1) / (n : ℚ) :=
    div_nonneg hnum (le_of_lt hn)
  constructor
  · apply Int.le_floor.mpr
    push_cast
    exact mul_nonneg hratio0 hc
  · apply Int.floor_le_floor
    calc ((attempt : ℚ) - 1) / (n : ℚ) * c ≤ 1 * c := by
          apply mul_le_mul_of_nonneg_right hratio1 hc
      _ = c := one_mul c

/-- Claim C10: every write to the shared progress field — both admission
writes, the per-attempt sending and waiting writes of the wake sequence,
the per-poll write while waiting for health (additionally capped at 95
until health is observed), the success write, and both power-off
writes — lies between 0 and 100 inclusive. -/
theorem progress_bounds (attempt n : Int) (elapsed timeout : ℚ) :
    (0 ≤ wakeAdmissionProgress ∧ wakeAdmissionProgress ≤ 100) ∧
    (0 ≤ powerOffAdmissionProgress ∧ powerOffAdmissionProgress ≤ 100) ∧
    (1 ≤ attempt → attempt ≤ n →
      0 ≤ wakeSendProgress attempt n ∧ wakeSendProgress attempt n ≤ 100) ∧
    (1 ≤ attempt → attempt ≤ n →
      40 ≤ wakeWaitProgress attempt n ∧ wakeWaitProgress attempt n ≤ 100) ∧
    (0 ≤ elapsed → 0 < timeout →
      70 ≤ pollProgress elapsed timeout ∧ pollProgress elapsed timeout ≤ 95) ∧
    (0 ≤ wakeOnlineProgress ∧ wakeOnlineProgress ≤ 100) ∧
    (0 ≤ powerOffSignaledProgress ∧ powerOffSignaledProgress ≤ 100) ∧
    (0 ≤ powerOffCompleteProgress ∧ powerOffCompleteProgress ≤ 100) := by
  refine ⟨by decide, by decide, ?_, ?_, ?_, by decide, by decide, by decide⟩
  · intro h1 h2
    have hb := ratio_floor_bounds attempt n 40 h1 h2 (by norm_num)
    have h40 : Int.floor ((40 : ℚ)) = 40 := by norm_num
    unfold wakeSendProgress
    omega
  · intro h1 h2
    have hb := ratio_floor_bounds attempt n 30 h1 h2 (by norm_num)
    have h30 : Int.floor ((30 : ℚ)) = 30 := by norm_num
    unfold wakeWaitProgress
    omega
  · intro he ht
    have hratio : (0 : ℚ) ≤ elapsed / timeout * 30 := by positivity
    have hfl : 0 ≤ Int.floor (elapsed / timeout * 30) := by
      apply Int.le_floor.mpr
      push_cast
      exact hratio
    unfold pollProgress
    dsimp only
    split
    · constructor <;> omega
    · next hnot =>
      constructor <;> omega

/-- Claim C10 witness: the bounds at attempt 1 of 3, attempt 2 of 3, and
a poll 4 seconds into a 30-second timeout. -/
theorem progress_bounds_witness :
    (0 ≤ wakeSendProgress 1 3 ∧ wakeSendProgress 1 3 ≤ 100) ∧
    (40 ≤ wakeWaitProgress 2 3 ∧ wakeWaitProgress 2 3 ≤ 100) ∧
    (70 ≤ pollProgress 4 30 ∧ pollProgress 4 30 ≤ 95) :=
  ⟨(progress_bounds 1 3 4 30).2.2.1 (by decide) (by decide),
   (progress_bounds 2 3 4 30).2.2.2.1 (by decide) (by decide),
   (progress_bounds 1 3 4 30).2.2.2.2.1 (by norm_num) (by norm_num)⟩



/-- Helper: a successful construction implies every numeric field
parsed. -/
theorem New_isSome_parts {c : GoConfig} (h : (New c).isSome) :
    (goAtoi c.port).isSome ∧ (goAtoi c.timeout).isSome ∧
    (goAtoi c.retryAttempts).isSome ∧ (goAtoi c.retryInterval).isSome ∧
    (goAtoi c.healthCheckInterval).isSome ∧ (goAtoi c.redirectDelay).isSome := by
  unfold New at h
  split at h
  · simp at h
  split at h
  · simp at h
  cases hp : goAtoi c.port
  · rw [hp] at h; simp at h
  rw [hp] at h
  simp only [Option.some_bind] at h
  cases ht : goAtoi c.timeout
  · rw [ht] at h; simp at h
  rw [ht] at h
  simp only [Option.some_bind] at h
  cases hra : goAtoi c.retryAttempts
  · rw [hra] at h; simp at h
  rw [hra] at h
  simp only [Option.some_bind] at h
  cases hri : goAtoi c.retryInterval
  · rw [hri] at h; simp at h
  rw [hri] at h
  simp only [Option.some_bind] at h
  cases hhc : goAtoi c.healthCheckInterval
  · rw [hhc] at h; simp at h
  rw [hhc] at h
  simp only [Option.some_bind] at h
  cases hrd : goAtoi c.redirectDelay
  · rw [hrd] at h; simp at h
  simp [hp, ht, hra, hri, hhc, hrd]

/-- Claim C7 counterexample: a configuration whose hardware-address text
`zz` is malformed (rejected by `parseMACAddress`) but whose numeric
fields are valid constructs successfully — `New` never parses the MAC,
so the claim as stated is false. -/
theorem new_malformed_mac_counterexample :
    parseMACAddress (goBytes "zz") = none ∧
    (New
      { healthCheck := goBytes "http://backend/health"
        macAddress := goBytes "zz"
        ipAddress := goBytes "192.168.1.100"
        broadcastAddress := []
        networkInterface := []
        port := goBytes "9"
        timeout := goBytes "30"
        retryAttempts := goBytes "3"
        retryInterval := goBytes "5"
        healthCheckInterval := goBytes "10"
        redirectDelay := goBytes "3"
        showPowerOffButton := false
        powerOffCommand := [] }).isSome = true := by
  constructor
  · decide
  · decide

/-- Claim C7 amended: construction fails whenever any numeric field
(port, timeout, retryAttempts, retryInterval, healthCheckInterval,
redirectDelay) is non-numeric; a malformed hardware-address text does
not fail construction and instead makes every runtime wake-packet send
fail with an invalid-MAC error. -/
theorem new_nonNumeric_fails (c : GoConfig)
    (h : goAtoi c.port = none ∨ goAtoi c.timeout = none ∨
      goAtoi c.retryAttempts = none ∨ goAtoi c.retryInterval = none ∨
      goAtoi c.healthCheckInterval = none ∨ goAtoi c.redirectDelay = none) :
    New c = none ∧
    (∀ (ip : List Nat) (bcasts : List (List Nat))
      (send : List Nat → Option (List Nat)),
      parseMACAddress c.macAddress = none →
      sendWOLPacket c.macAddress ip bcasts send =
        some (goBytes "invalid MAC address")) := by
  constructor
  · cases hN : New c with
    | none => rfl
    | some v =>
      exfalso
      have hparts := New_isSome_parts (c := c) (by simp [hN])
      rcases h with h|h|h|h|h|h <;> simp [h] at hparts
  · intro ip bcasts send hmac
    simp [sendWOLPacket, hmac]

/-- Claim C7 amended witness: a non-numeric port fails construction, and
the malformed MAC `zz` fails `sendWOLPacket` at runtime. -/
theorem new_nonNumeric_fails_witness :
    New
      { healthCheck := goBytes "http://backend/health"
        macAddress := goBytes "zz"
        ipAddress := goBytes "192.168.1.100"
        broadcastAddress := []
        networkInterface := []
        port := goBytes "oops"
        timeout := goBytes "30"
        retryAttempts := goBytes "3"
        retryInterval := goBytes "5"
        healthCheckInterval := goBytes "10"
        redirectDelay := goBytes "3"
        showPowerOffButton := false
        powerOffCommand := [] } = none ∧
    sendWOLPacket (goBytes "zz") (goBytes "192.168.1.100") [] (fun _ => none) =
      some (goBytes "invalid MAC address") :=
  ⟨(new_nonNumeric_fails _ (Or.inl (by decide))).1,
   (new_nonNumeric_fails
      { healthCheck := goBytes "http://backend/health"
        macAddress := goBytes "zz"
        ipAddress := goBytes "192.168.1.100"
        broadcastAddress := []
        networkInterface := []
        port := goBytes "oops"
        timeout := goBytes "30"
        retryAttempts := goBytes "3"
        retryInterval := goBytes "5"
        healthCheckInterval := goBytes "10"
        redirectDelay := goBytes "3"
        showPowerOffButton := false
        powerOffCommand := [] } (Or.inl (by decide))).2
     (goBytes "192.168.1.100") [] (fun _ => none) (by decide)⟩

/-- Claim C8 counterexample: with no configured broadcast address and
interface discovery finding no valid interfaces (empty scan, or a failed
`net.Interfaces()`), `getBroadcastAddresses` returns the empty list, not
the limited-broadcast fallback the claim states. -/
theorem getBroadcastAddresses_counterexample :
    getBroadcastAddresses [] [] (some []) = [] ∧
    getBroadcastAddresses [] [] none = [] ∧
    ([] : List (List Nat)) ≠ [goBytes "255.255.255.255"] := by
  refine ⟨by decide, by decide, by decide⟩

/-- Claim C8 amended: a configured broadcast address is returned
exclusively, skipping discovery; when discovery succeeds but yields no
broadcast candidate the result is the single limited-broadcast address
`255.255.255.255`; when discovery fails because no valid interfaces are
found the result is the empty list. -/
theorem getBroadcastAddresses_spec (b ni : List Nat)
    (sys : Option (List NetInterface)) :
    (b ≠ [] → getBroadcastAddresses b ni sys = [b]) ∧
    (∀ ifaces : List NetInterface, getNetworkInterfaces ni sys = some ifaces →
      (ifaces.map NetInterface.broadcasts).flatten = [] →
      getBroadcastAddresses [] ni sys = [goBytes "255.255.255.255"]) ∧
    (getNetworkInterfaces ni sys = none → getBroadcastAddresses [] ni sys = []) ∧
    (∀ ifaces : List NetInterface, getNetworkInterfaces ni sys = some ifaces →
      (ifaces.map NetInterface.broadcasts).flatten ≠ [] →
      getBroadcastAddresses [] ni sys =
        (ifaces.map NetInterface.broadcasts).flatten) := by
  refine ⟨?_, ?_, ?_, ?_⟩
  · intro hb
    simp [getBroadcastAddresses, hb]
  · intro ifaces hif hflat
    simp [getBroadcastAddresses, hif, hflat]
  · intro hif
    simp [getBroadcastAddresses, hif]
  · intro ifaces hif hflat
    simp [getBroadcastAddresses, hif, hflat]

/-- Claim C8 amended witness: a configured address is used exclusively,
a candidate-free successful discovery falls back to `255.255.255.255`,
and a failed discovery yields the empty list. -/
theorem getBroadcastAddresses_spec_witness :
    getBroadcastAddresses (goBytes "10.0.0.255") [] none = [goBytes "10.0.0.255"] ∧
    getBroadcastAddresses [] []
        (some [{ name := goBytes "eth0", flagLoopback := false, flagUp := true,
                 broadcasts := [] }]) = [goBytes "255.255.255.255"] ∧
    getBroadcastAddresses [] [] (some []) = [] :=
  ⟨(getBroadcastAddresses_spec (goBytes "10.0.0.255") [] none).1 (by decide),
   (getBroadcastAddresses_spec [] []
      (some [{ name := goBytes "eth0", flagLoopback := false, flagUp := true,
               broadcasts := [] }])).2.1
     [{ name := goBytes "eth0", flagLoopback := false, flagUp := true,
        broadcasts := [] }] (by decide) (by decide),
   (getBroadcastAddresses_spec [] [] (some [])).2.2.1 (by decide)⟩

end WOL
